import Mathlib

/-!
Verification development for the core of a Cairo-style virtual machine
(`src/vm/vm_core.rs`, `src/vm/hints/dict_hint_utils.rs`, `src/vm/hints/pow_utils.rs`).

The Rust sources are shallowly embedded: `BigInt` becomes `ℤ` (with the
truncating `Int.tdiv` / `Int.tmod` for Rust's `/` and `%` on `BigInt`, and
`Int.fmod` for `mod_floor`), `usize` becomes `ℕ`, fallible functions return
`Except`, Rust panics and failed `assert!` macros are represented by
dedicated error constructors, and in-place mutation becomes explicit state
passing.  Types and functions that the embedded files use but whose sources
are not part of the embedding perimeter (`relocatable.rs`, `memory.rs`,
`run_context.rs`, `instruction.rs`, `dict_manager.rs`, the `ids` resolution
helpers) are modelled from the specification document and marked as such in
their doc comments.
-/

namespace CairoVM

/-- Relocatable address: a pair of a segment index (an `i64` in the source,
modelled as `ℤ`) and an offset (`usize`, modelled as `ℕ`). -/
structure Relocatable where
  segment_index : ℤ
  offset : ℕ
deriving DecidableEq, Repr

/-- Tagged memory value: a field element (arbitrary-precision integer) or a
relocatable address. -/
inductive MaybeRelocatable where
  | Int (value : ℤ)
  | RelocatableValue (rel : Relocatable)
deriving DecidableEq, Repr

/-- Unified error type covering `VirtualMachineError` of `vm_core.rs`
together with the hint-side error constructors used by the dict and pow
hints.  Rust panics inside `opcode_assertions` and the `assert!` calls of
`compute_operands` are represented by the `Panic*` constructors. -/
inductive VirtualMachineError where
  | InvalidInstructionEncoding
  | InvalidDstReg
  | InvalidOp0Reg
  | InvalidOp1Reg
  | ImmShouldBe1
  | UnknownOp0
  | InvalidFpUpdate
  | InvalidApUpdate
  | InvalidPcUpdate
  | UnconstrainedResAdd
  | UnconstrainedResJump
  | UnconstrainedResJumpRel
  | PureValue
  | InvalidRes
  | RelocatableAdd
  | NotImplemented
  | DiffIndexSub
  | InconsistentMemory (addr old new : MaybeRelocatable)
  | ExpectedInteger (addr : MaybeRelocatable)
  | NoDictTracker (segment : ℤ)
  | MismatchedDictPtr (current : Relocatable) (got : Relocatable)
  | NoValueForKey (key : ℤ)
  | WrongPrevValue (given current key : ℤ)
  | NoInitialDict
  | FailedToGetIds
  | PanicUnconstrainedResAssertEq
  | PanicAssertEqFailed
  | PanicCallWrongOp0
  | PanicCallWrongDst
  | PanicNoOp0
  | PanicNoOp1
  | PanicNoDst
deriving DecidableEq, Repr

/-- Equality of `Except` results is decidable componentwise; used to
evaluate the embedded functions on concrete inputs. -/
instance exceptDecidableEq {ε α : Type} [DecidableEq ε] [DecidableEq α] :
    DecidableEq (Except ε α) := fun a b =>
  match a, b with
  | .error e1, .error e2 =>
    if h : e1 = e2 then .isTrue (by rw [h]) else .isFalse (by intro hc; cases hc; exact h rfl)
  | .error _, .ok _ => .isFalse (by intro hc; cases hc)
  | .ok _, .error _ => .isFalse (by intro hc; cases hc)
  | .ok v1, .ok v2 =>
    if h : v1 = v2 then .isTrue (by rw [h]) else .isFalse (by intro hc; cases hc; exact h rfl)

/-- Modelled from the spec: `MaybeRelocatable::add_usize_mod` of
`relocatable.rs` (not under `src/`).  A relocatable address is shifted on its
offset; an integer is added to, reduced with floor-modulo only when a prime
is supplied. -/
def MaybeRelocatable.add_usize_mod (m : MaybeRelocatable) (other : ℕ)
    (prime : Option ℤ) : MaybeRelocatable :=
  match m with
  | .Int value =>
    match prime with
    | some p => .Int (Int.fmod (value + other) p)
    | none => .Int (value + other)
  | .RelocatableValue rel => .RelocatableValue ⟨rel.segment_index, rel.offset + other⟩

/-- Modelled from the spec: `MaybeRelocatable::add_int_mod` of
`relocatable.rs` (not under `src/`).  Adds a (possibly negative) integer,
with the result reduced with floor-modulo by the prime. -/
def MaybeRelocatable.add_int_mod (m : MaybeRelocatable) (other : ℤ)
    (prime : ℤ) : MaybeRelocatable :=
  match m with
  | .Int value => .Int (Int.fmod (value + other) prime)
  | .RelocatableValue rel =>
    .RelocatableValue ⟨rel.segment_index, (Int.fmod ((rel.offset : ℤ) + other) prime).toNat⟩

/-- Modelled from the spec: `MaybeRelocatable::add_mod` of `relocatable.rs`
(not under `src/`).  `Int + Int` is modular, `Rel + Int` shifts the offset
modulo the prime, `Rel + Rel` fails with `RelocatableAdd`; an integer plus a
relocatable also fails. -/
def MaybeRelocatable.add_mod (m : MaybeRelocatable) (other : MaybeRelocatable)
    (prime : ℤ) : Except VirtualMachineError MaybeRelocatable :=
  match m, other with
  | .Int a, .Int b => .ok (.Int (Int.fmod (a + b) prime))
  | .RelocatableValue rel, .Int b =>
    .ok (.RelocatableValue ⟨rel.segment_index, (Int.fmod ((rel.offset : ℤ) + b) prime).toNat⟩)
  | .Int _, .RelocatableValue _ => .error .RelocatableAdd
  | .RelocatableValue _, .RelocatableValue _ => .error .RelocatableAdd

/-- Modelled from the spec: `MaybeRelocatable::sub` of `relocatable.rs`
(not under `src/`).  `Rel - Rel` requires identical segments and yields an
`Int` offset difference, `Rel - Int` shifts, `Int - Int` is the plain
difference. -/
def MaybeRelocatable.sub (m : MaybeRelocatable) (other : MaybeRelocatable) :
    Except VirtualMachineError MaybeRelocatable :=
  match m, other with
  | .Int a, .Int b => .ok (.Int (a - b))
  | .RelocatableValue a, .RelocatableValue b =>
    if a.segment_index = b.segment_index then
      .ok (.Int ((a.offset : ℤ) - (b.offset : ℤ)))
    else
      .error .DiffIndexSub
  | .RelocatableValue rel, .Int b =>
    .ok (.RelocatableValue ⟨rel.segment_index, ((rel.offset : ℤ) - b).toNat⟩)
  | .Int _, .RelocatableValue _ => .error .NotImplemented

/-- Sparse memory, modelled from the spec (`memory.rs` is not under `src/`):
a mapping from addresses to values, here an association list.  `vm_core.rs`
addresses it with `MaybeRelocatable` keys. -/
abbrev Memory := List (MaybeRelocatable × MaybeRelocatable)

/-- Modelled from the spec: `Memory::get` returns the stored value or an
absent indicator. -/
def Memory.get (m : Memory) (addr : MaybeRelocatable) : Option MaybeRelocatable :=
  match m with
  | [] => none
  | (a, v) :: rest => if a = addr then some v else Memory.get rest addr

/-- Modelled from the spec: `Memory::insert` has write-once semantics:
re-writing an equal value is a no-op, a different value raises
`InconsistentMemory` and leaves the old value in place. -/
def Memory.insert (m : Memory) (addr value : MaybeRelocatable) :
    Except VirtualMachineError Memory :=
  match m.get addr with
  | none => .ok ((addr, value) :: m)
  | some old => if old = value then .ok m else .error (.InconsistentMemory addr old value)

/-- The call sites in `compute_operands` discard the result of
`Memory::insert`; this wrapper keeps the memory unchanged when the insert
reports an inconsistency, matching the discarded-result semantics. -/
def Memory.insertQuiet (m : Memory) (addr value : MaybeRelocatable) : Memory :=
  match m.insert addr value with
  | .ok m2 => m2
  | .error _ => m

/-- Modelled from the spec: `Memory::get_integer` returns the stored field
element, or `ExpectedInteger` when the cell is absent or holds a
relocatable. -/
def Memory.get_integer (m : Memory) (addr : MaybeRelocatable) :
    Except VirtualMachineError ℤ :=
  match m.get addr with
  | some (.Int i) => .ok i
  | _ => .error (.ExpectedInteger addr)

/-- Register selector of `instruction.rs` (not under `src/`), as used by the
embedded code. -/
inductive Register where
  | AP
  | FP
deriving DecidableEq, Repr

/-- `op1_src` selector of `instruction.rs` (not under `src/`). -/
inductive Op1Addr where
  | Imm
  | AP
  | FP
  | Op0
deriving DecidableEq, Repr

/-- Result mode of `instruction.rs` (not under `src/`). -/
inductive Res where
  | Op1
  | Add
  | Mul
  | Unconstrained
deriving DecidableEq, Repr

/-- `pc_update` mode of `instruction.rs` (not under `src/`). -/
inductive PcUpdate where
  | Regular
  | Jump
  | JumpRel
  | Jnz
deriving DecidableEq, Repr

/-- `ap_update` mode of `instruction.rs` (not under `src/`). -/
inductive ApUpdate where
  | Regular
  | Add
  | Add1
  | Add2
deriving DecidableEq, Repr

/-- `fp_update` mode of `instruction.rs` (not under `src/`). -/
inductive FpUpdate where
  | Regular
  | APPlus2
  | Dst
deriving DecidableEq, Repr

/-- Opcode tag of `instruction.rs` (not under `src/`). -/
inductive Opcode where
  | NOp
  | AssertEq
  | Call
  | Ret
deriving DecidableEq, Repr

/-- Decoded instruction, mirroring `Instruction` of `instruction.rs`
(not under `src/`); the field list matches the construction sites in the
embedded tests and `vm_core.rs`. -/
structure Instruction where
  off0 : ℤ
  off1 : ℤ
  off2 : ℤ
  imm : Option ℤ
  dst_register : Register
  op0_register : Register
  op1_addr : Op1Addr
  res : Res
  pc_update : PcUpdate
  ap_update : ApUpdate
  fp_update : FpUpdate
  opcode : Opcode
deriving DecidableEq, Repr

/-- Modelled from the spec: `Instruction::size` is 2 when an immediate is
present, else 1. -/
def Instruction.size (i : Instruction) : ℕ :=
  match i.imm with
  | some _ => 2
  | none => 1

/-- Run context `{ pc, ap, fp, prime }` of `run_context.rs`
(not under `src/`). -/
structure RunContext where
  pc : MaybeRelocatable
  ap : MaybeRelocatable
  fp : MaybeRelocatable
  prime : ℤ
deriving DecidableEq, Repr

/-- Base register value selected by a register flag. -/
def RunContext.get_register (ctx : RunContext) (r : Register) : MaybeRelocatable :=
  match r with
  | .AP => ctx.ap
  | .FP => ctx.fp

/-- Modelled from the spec: `dst_addr = reg(dst_reg) + off0`
(`run_context.rs` is not under `src/`). -/
def RunContext.compute_dst_addr (ctx : RunContext) (instruction : Instruction) :
    MaybeRelocatable :=
  (ctx.get_register instruction.dst_register).add_int_mod instruction.off0 ctx.prime

/-- Modelled from the spec: `op0_addr = reg(op0_reg) + off1`
(`run_context.rs` is not under `src/`). -/
def RunContext.compute_op0_addr (ctx : RunContext) (instruction : Instruction) :
    MaybeRelocatable :=
  (ctx.get_register instruction.op0_register).add_int_mod instruction.off1 ctx.prime

/-- Modelled from the spec: `op1_addr` is `pc + 1` for an immediate,
`reg + off2` for AP/FP, and `op0 + off2` for the Op0 source, requiring op0
to be known (`run_context.rs` is not under `src/`). -/
def RunContext.compute_op1_addr (ctx : RunContext) (instruction : Instruction)
    (op0 : Option MaybeRelocatable) :
    Except VirtualMachineError MaybeRelocatable :=
  match instruction.op1_addr with
  | .Imm => .ok (ctx.pc.add_usize_mod 1 none)
  | .AP => .ok (ctx.ap.add_int_mod instruction.off2 ctx.prime)
  | .FP => .ok (ctx.fp.add_int_mod instruction.off2 ctx.prime)
  | .Op0 =>
    match op0 with
    | some v => .ok (v.add_int_mod instruction.off2 ctx.prime)
    | none => .error .UnknownOp0

/-- Resolved operands of one instruction (`Operands` in `vm_core.rs`). -/
structure Operands where
  dst : MaybeRelocatable
  res : Option MaybeRelocatable
  op0 : MaybeRelocatable
  op1 : MaybeRelocatable
deriving DecidableEq, Repr

/-- Trace entry `{ pc, ap, fp }` captured before the register update
(`trace_entry.rs` is not under `src/`; modelled from the spec). -/
structure TraceEntry where
  pc : MaybeRelocatable
  ap : MaybeRelocatable
  fp : MaybeRelocatable
deriving DecidableEq, Repr

/-- The machine state of `VirtualMachine` in `vm_core.rs`, restricted to the
fields the embedded functions read or write (builtin runners and the
validated-address list play no role in the embedded code paths). -/
structure VirtualMachine where
  run_context : RunContext
  prime : ℤ
  memory : Memory
  accessed_addresses : List MaybeRelocatable
  trace : List TraceEntry
  current_step : ℕ
deriving DecidableEq, Repr

/-- `update_fp` of `vm_core.rs`: APPlus2 sets `fp := ap + 2`, Dst sets
`fp := operands.dst` (whatever its variant), Regular leaves fp unchanged.
The function is total and cannot fail. -/
def update_fp (instruction : Instruction) (operands : Operands)
    (ctx : RunContext) : RunContext :=
  match instruction.fp_update with
  | .APPlus2 => { ctx with fp := ctx.ap.add_usize_mod 2 none }
  | .Dst => { ctx with fp := operands.dst }
  | .Regular => ctx

/-- `update_ap` of `vm_core.rs`. -/
def update_ap (prime : ℤ) (instruction : Instruction) (operands : Operands)
    (ctx : RunContext) : Except VirtualMachineError RunContext :=
  match instruction.ap_update with
  | .Add =>
    match operands.res with
    | some res =>
      match ctx.ap.add_mod res prime with
      | .error e => .error e
      | .ok v => .ok { ctx with ap := v }
    | none => .error .UnconstrainedResAdd
  | .Add1 => .ok { ctx with ap := ctx.ap.add_usize_mod 1 none }
  | .Add2 => .ok { ctx with ap := ctx.ap.add_usize_mod 2 none }
  | .Regular => .ok ctx

/-- `is_zero` of `vm_core.rs`: true exactly on the integer zero; a
relocatable value raises `PureValue`. -/
def VirtualMachine.is_zero (addr : MaybeRelocatable) :
    Except VirtualMachineError Bool :=
  match addr with
  | .Int num => .ok (num = 0)
  | .RelocatableValue _ => .error .PureValue

/-- `update_pc` of `vm_core.rs`. -/
def update_pc (prime : ℤ) (instruction : Instruction) (operands : Operands)
    (ctx : RunContext) : Except VirtualMachineError RunContext :=
  match instruction.pc_update with
  | .Regular => .ok { ctx with pc := ctx.pc.add_usize_mod instruction.size (some prime) }
  | .Jump =>
    match operands.res with
    | some res => .ok { ctx with pc := res }
    | none => .error .UnconstrainedResJump
  | .JumpRel =>
    match operands.res with
    | some res =>
      match res with
      | .Int num_res => .ok { ctx with pc := ctx.pc.add_int_mod num_res prime }
      | _ => .error .PureValue
    | none => .error .UnconstrainedResJumpRel
  | .Jnz =>
    match VirtualMachine.is_zero operands.dst with
    | .error e => .error e
    | .ok true => .ok { ctx with pc := ctx.pc.add_usize_mod instruction.size none }
    | .ok false =>
      match ctx.pc.add_mod operands.op1 prime with
      | .error e => .error e
      | .ok v => .ok { ctx with pc := v }

/-- `update_registers` of `vm_core.rs`: fp, then ap, then pc. -/
def update_registers (prime : ℤ) (instruction : Instruction)
    (operands : Operands) (ctx : RunContext) :
    Except VirtualMachineError RunContext :=
  let ctx1 := update_fp instruction operands ctx
  match update_ap prime instruction operands ctx1 with
  | .error e => .error e
  | .ok ctx2 => update_pc prime instruction operands ctx2

/-- `deduce_op0` of `vm_core.rs`.  Note that the Mul branch divides with the
truncating `BigInt` quotient `num_dst / num_op1` and then reduces with the
truncating remainder modulo the prime. -/
def deduce_op0 (ctx : RunContext) (prime : ℤ) (instruction : Instruction)
    (dst op1 : Option MaybeRelocatable) :
    Except VirtualMachineError (Option MaybeRelocatable × Option MaybeRelocatable) :=
  match instruction.opcode with
  | .Call => .ok (some (ctx.pc.add_usize_mod instruction.size none), none)
  | .AssertEq =>
    match instruction.res with
    | .Add =>
      match dst, op1 with
      | some dst_addr, some op1_addr =>
        match dst_addr.sub op1_addr with
        | .error e => .error e
        | .ok d => .ok (some d, some dst_addr)
      | _, _ => .ok (none, none)
    | .Mul =>
      match dst, op1 with
      | some (.Int num_dst), some (.Int num_op1) =>
        if num_op1 ≠ 0 then
          .ok (some (.Int (Int.tmod (Int.tdiv num_dst num_op1) prime)), some (.Int num_dst))
        else
          .ok (none, none)
      | _, _ => .ok (none, none)
    | _ => .ok (none, none)
  | _ => .ok (none, none)

/-- `deduce_op1` of `vm_core.rs`, symmetric to `deduce_op0` for AssertEq,
again with the truncating quotient in the Mul branch. -/
def deduce_op1 (instruction : Instruction) (prime : ℤ)
    (dst op0 : Option MaybeRelocatable) :
    Except VirtualMachineError (Option MaybeRelocatable × Option MaybeRelocatable) :=
  match instruction.opcode with
  | .AssertEq =>
    match instruction.res with
    | .Op1 =>
      match dst with
      | some dst_addr => .ok (some dst_addr, some dst_addr)
      | none => .ok (none, none)
    | .Add =>
      match dst, op0 with
      | some dst_addr, some op0_addr =>
        match dst_addr.sub op0_addr with
        | .error e => .error e
        | .ok d => .ok (some d, some dst_addr)
      | _, _ => .ok (none, none)
    | .Mul =>
      match dst, op0 with
      | some (.Int num_dst), some (.Int num_op0) =>
        if num_op0 ≠ 0 then
          .ok (some (.Int (Int.tmod (Int.tdiv num_dst num_op0) prime)), some (.Int num_dst))
        else
          .ok (none, none)
      | _, _ => .ok (none, none)
    | .Unconstrained => .ok (none, none)
  | _ => .ok (none, none)

/-- `compute_res` of `vm_core.rs`. -/
def compute_res (prime : ℤ) (instruction : Instruction)
    (op0 op1 : MaybeRelocatable) :
    Except VirtualMachineError (Option MaybeRelocatable) :=
  match instruction.res with
  | .Op1 => .ok (some op1)
  | .Add =>
    match op0.add_mod op1 prime with
    | .error e => .error e
    | .ok v => .ok (some v)
  | .Mul =>
    match op0, op1 with
    | .Int num_op0, .Int num_op1 => .ok (some (.Int (Int.tmod (num_op0 * num_op1) prime)))
    | _, _ => .error .PureValue
  | .Unconstrained => .ok none

/-- Second half of the Call branch of `opcode_assertions`: the return-fp
check, compared only when both fp and dst are integers. -/
def check_call_dst (operands : Operands) (ctx : RunContext) :
    Except VirtualMachineError Unit :=
  match ctx.fp, operands.dst with
  | .Int return_fp, .Int dst_num =>
    if dst_num ≠ return_fp then .error .PanicCallWrongDst else .ok ()
  | _, _ => .ok ()

/-- `opcode_assertions` of `vm_core.rs`.  The Rust function panics on a
violated assertion; the panics are embedded as `Panic*` errors.  Both Call
checks compare only when the two values concerned are `Int`; any other
combination is silently skipped. -/
def opcode_assertions (instruction : Instruction) (operands : Operands)
    (ctx : RunContext) : Except VirtualMachineError Unit :=
  match instruction.opcode with
  | .AssertEq =>
    match operands.res with
    | none => .error .PanicUnconstrainedResAssertEq
    | some res =>
      match res, operands.dst with
      | .Int res_num, .Int dst_num =>
        if res_num ≠ dst_num then .error .PanicAssertEqFailed else .ok ()
      | _, _ => .ok ()
  | .Call =>
    match operands.op0, ctx.pc with
    | .Int op0_num, .Int run_pc =>
      if op0_num ≠ run_pc + (instruction.size : ℤ) then .error .PanicCallWrongOp0
      else check_call_dst operands ctx
    | _, _ => check_call_dst operands ctx
  | _ => .ok ()

/-- `compute_operands` of `vm_core.rs`: reads the three operand cells,
deduces the missing ones, computes `res` and `dst`, writes deduced operands
back to memory (the Rust call sites discard the insert results), and returns
the operands, the three operand addresses and the updated memory. -/
def compute_operands (vm : VirtualMachine) (instruction : Instruction) :
    Except VirtualMachineError (Operands × List MaybeRelocatable × Memory) :=
  let dst_addr := vm.run_context.compute_dst_addr instruction
  let dst0 := vm.memory.get dst_addr
  let op0_addr := vm.run_context.compute_op0_addr instruction
  let op0_0 := vm.memory.get op0_addr
  match vm.run_context.compute_op1_addr instruction op0_0 with
  | .error e => .error e
  | .ok op1_addr =>
    let op1_0 := vm.memory.get op1_addr
    match (match op0_0 with
           | none => deduce_op0 vm.run_context vm.prime instruction dst0 op1_0
           | some v => .ok (some v, none)) with
    | .error e => .error e
    | .ok (op0_1, res0) =>
      match (match op1_0 with
             | none => deduce_op1 instruction vm.prime dst0 op0_1
             | some v => .ok (some v, none)) with
      | .error e => .error e
      | .ok (op1_1, res1) =>
        let res2 := match res0 with
                    | some r => some r
                    | none => res1
        match op0_1 with
        | none => .error .PanicNoOp0
        | some op0_v =>
          match op1_1 with
          | none => .error .PanicNoOp1
          | some op1_v =>
            match (match res2 with
                   | none => compute_res vm.prime instruction op0_v op1_v
                   | some r => .ok (some r)) with
            | .error e => .error e
            | .ok res3 =>
              match ((match dst0 with
                     | some d => .ok d
                     | none =>
                       match instruction.opcode, res3 with
                       | .AssertEq, some r => .ok r
                       | .Call, _ => .ok vm.run_context.fp
                       | _, _ => .error .PanicNoDst) :
                       Except VirtualMachineError MaybeRelocatable) with
              | .error e => .error e
              | .ok dst_v =>
                let mem1 := if dst0 = none then vm.memory.insertQuiet dst_addr dst_v
                            else vm.memory
                let mem2 := if op0_0 = none then mem1.insertQuiet op0_addr op0_v
                            else mem1
                let mem3 := if op1_0 = none then mem2.insertQuiet op1_addr op1_v
                            else mem2
                .ok (⟨dst_v, res3, op0_v, op1_v⟩, [dst_addr, op0_addr, op1_addr], mem3)

/-- One step of the access-recording loop of `run_instruction`: push the
address only when it is not already present. -/
def push_unique (l : List MaybeRelocatable) (a : MaybeRelocatable) :
    List MaybeRelocatable :=
  if a ∈ l then l else l ++ [a]

/-- The access-recording loop of `run_instruction` over the operand
addresses. -/
def push_all_unique (l : List MaybeRelocatable) (addrs : List MaybeRelocatable) :
    List MaybeRelocatable :=
  match addrs with
  | [] => l
  | a :: rest => push_all_unique (push_unique l a) rest

/-- `run_instruction` of `vm_core.rs`: resolve operands, run the opcode
assertions, append the trace entry with the pre-update registers, record the
operand addresses and the pc in `accessed_addresses`, update the registers
and increment `current_step`. -/
def run_instruction (vm : VirtualMachine) (instruction : Instruction) :
    Except VirtualMachineError VirtualMachine :=
  match compute_operands vm instruction with
  | .error e => .error e
  | .ok (operands, operands_mem_addresses, new_memory) =>
    match opcode_assertions instruction operands vm.run_context with
    | .error e => .error e
    | .ok _ =>
      let new_trace := vm.trace ++
        [⟨vm.run_context.pc, vm.run_context.ap, vm.run_context.fp⟩]
      let acc1 := push_all_unique vm.accessed_addresses operands_mem_addresses
      let acc2 := push_unique acc1 vm.run_context.pc
      match update_registers vm.prime instruction operands vm.run_context with
      | .error e => .error e
      | .ok ctx2 =>
        .ok { vm with
                run_context := ctx2
                memory := new_memory
                trace := new_trace
                accessed_addresses := acc2
                current_step := vm.current_step + 1 }

/-- Entry stride of the dictionary hints: each access record occupies three
cells (`DICT_ACCESS_SIZE` in `dict_hint_utils.rs`). -/
def DICT_ACCESS_SIZE : ℕ := 3

/-- Association list standing in for the `HashMap<BigInt, BigInt>` holding a
dictionary's data. -/
abbrev Dictionary := List (ℤ × ℤ)

/-- Lookup in a dictionary's data map. -/
def Dictionary.getVal (d : Dictionary) (key : ℤ) : Option ℤ :=
  match d with
  | [] => none
  | (k, v) :: rest => if k = key then some v else Dictionary.getVal rest key

/-- Store a value in a dictionary's data map, replacing any previous binding
of the key. -/
def Dictionary.setVal (d : Dictionary) (key value : ℤ) : Dictionary :=
  match d with
  | [] => [(key, value)]
  | (k, v) :: rest =>
    if k = key then (k, value) :: rest else (k, v) :: Dictionary.setVal rest key value

/-- Modelled from the spec: the data variants of a dict tracker
(`dict_manager.rs` is not under `src/`): a Simple map, or a Default map with
a default value for absent keys. -/
inductive DictData where
  | Simple (data : Dictionary)
  | Default (default_value : ℤ) (data : Dictionary)
deriving DecidableEq, Repr

/-- Modelled from the spec: a dict tracker holds the hint-side pointer into
the dictionary segment and the data variant (`dict_manager.rs` is not under
`src/`). -/
structure DictTracker where
  current_ptr : Relocatable
  data : DictData
deriving DecidableEq, Repr

/-- Modelled from the spec: `DictTracker::get_value` returns the stored
value; a Simple tracker raises `NoValueForKey` on an absent key, a Default
tracker returns its default without inserting. -/
def DictTracker.get_value (t : DictTracker) (key : ℤ) :
    Except VirtualMachineError ℤ :=
  match t.data with
  | .Simple d =>
    match d.getVal key with
    | some v => .ok v
    | none => .error (.NoValueForKey key)
  | .Default default_value d =>
    match d.getVal key with
    | some v => .ok v
    | none => .ok default_value

/-- Modelled from the spec: `DictTracker::insert_value` stores a binding in
the tracker's data. -/
def DictTracker.insert_value (t : DictTracker) (key value : ℤ) : DictTracker :=
  { t with data :=
      match t.data with
      | .Simple d => .Simple (d.setVal key value)
      | .Default dv d => .Default dv (d.setVal key value) }

/-- Modelled from the spec: the dict manager keeps at most one tracker per
segment index (`dict_manager.rs` is not under `src/`); an association list
keyed by segment index. -/
abbrev DictManager := List (ℤ × DictTracker)

/-- Tracker lookup by segment index. -/
def DictManager.find (dm : DictManager) (segment : ℤ) : Option DictTracker :=
  match dm with
  | [] => none
  | (s, t) :: rest => if s = segment then some t else DictManager.find rest segment

/-- Replace the tracker stored for a segment index (no-op when the segment
has no tracker). -/
def DictManager.setTracker (dm : DictManager) (segment : ℤ) (t : DictTracker) :
    DictManager :=
  match dm with
  | [] => []
  | (s, t0) :: rest =>
    if s = segment then (s, t) :: rest
    else (s, t0) :: DictManager.setTracker rest segment t

/-- Modelled from the spec: `DictManager::get_tracker` requires a tracker
for the address's segment (else `NoDictTracker`) whose `current_ptr` equals
the address (else `MismatchedDictPtr`). -/
def DictManager.get_tracker (dm : DictManager) (addr : Relocatable) :
    Except VirtualMachineError DictTracker :=
  match dm.find addr.segment_index with
  | none => .error (.NoDictTracker addr.segment_index)
  | some t =>
    if t.current_ptr = addr then .ok t
    else .error (.MismatchedDictPtr t.current_ptr addr)

/-- Advance a tracker's `current_ptr` offset by the dict access stride,
embedding `tracker.current_ptr.offset += DICT_ACCESS_SIZE`. -/
def DictTracker.advance (t : DictTracker) : DictTracker :=
  { t with current_ptr := ⟨t.current_ptr.segment_index,
                           t.current_ptr.offset + DICT_ACCESS_SIZE⟩ }

/-- `dict_read` of `dict_hint_utils.rs`, after resolution of `ids.key`,
`ids.dict_ptr` and the target address of `ids.value` (the `ids` helpers are
not under `src/`).  The Rust function mutates the tracker in place before
reading the value, so the advanced pointer persists even when `get_value`
fails; the returned pair is the post-call manager and memory, with the
call's result. -/
def dict_read (dm : DictManager) (mem : Memory) (key : ℤ)
    (dict_ptr : Relocatable) (value_addr : MaybeRelocatable) :
    (DictManager × Memory) × Except VirtualMachineError Unit :=
  match dm.get_tracker dict_ptr with
  | .error e => ((dm, mem), .error e)
  | .ok tracker =>
    let tracker1 := tracker.advance
    let dm1 := dm.setTracker dict_ptr.segment_index tracker1
    match tracker1.get_value key with
    | .error e => ((dm1, mem), .error e)
    | .ok value =>
      match mem.insert value_addr (.Int value) with
      | .error e => ((dm1, mem), .error e)
      | .ok mem1 => ((dm1, mem1), .ok ())

/-- `dict_write` of `dict_hint_utils.rs`, after `ids` resolution: advance
the pointer, read the previous value (a Simple tracker may fail here, with
the advanced pointer persisting), store the new value, and write the
previous value at `dict_ptr + 1`. -/
def dict_write (dm : DictManager) (mem : Memory) (key new_value : ℤ)
    (dict_ptr : Relocatable) :
    (DictManager × Memory) × Except VirtualMachineError Unit :=
  match dm.get_tracker dict_ptr with
  | .error e => ((dm, mem), .error e)
  | .ok tracker =>
    let dict_ptr_prev_value : MaybeRelocatable :=
      .RelocatableValue ⟨dict_ptr.segment_index, dict_ptr.offset + 1⟩
    let tracker1 := tracker.advance
    match tracker1.get_value key with
    | .error e => ((dm.setTracker dict_ptr.segment_index tracker1, mem), .error e)
    | .ok prev_value =>
      let tracker2 := tracker1.insert_value key new_value
      let dm1 := dm.setTracker dict_ptr.segment_index tracker2
      match mem.insert dict_ptr_prev_value (.Int prev_value) with
      | .error e => ((dm1, mem), .error e)
      | .ok mem1 => ((dm1, mem1), .ok ())

/-- `dict_update` of `dict_hint_utils.rs`, after `ids` resolution: check
that `ids.prev_value` matches the tracker's current value for the key
(returning `WrongPrevValue(given, current, key)` and touching nothing on a
mismatch), then store the new value and advance the pointer.  The function
writes nothing to memory. -/
def dict_update (dm : DictManager) (key prev_value new_value : ℤ)
    (dict_ptr : Relocatable) :
    DictManager × Except VirtualMachineError Unit :=
  match dm.get_tracker dict_ptr with
  | .error e => (dm, .error e)
  | .ok tracker =>
    match tracker.get_value key with
    | .error e => (dm, .error e)
    | .ok current_value =>
      if current_value ≠ prev_value then
        (dm, .error (.WrongPrevValue prev_value current_value key))
      else
        let tracker2 := (tracker.insert_value key new_value).advance
        (dm.setTracker dict_ptr.segment_index tracker2, .ok ())

/-- Bitwise AND with one of a `BigInt`: num-bigint gives negative numbers
two's-complement semantics, so the low bit of any integer is its
floor/Euclidean remainder modulo 2. -/
def bigint_and_one (x : ℤ) : ℤ := Int.emod x 2

/-- `pow` of `pow_utils.rs`, after resolution of `ids.prev_locs` (a
relocatable address) and of the target address of `ids.locs` (the `ids`
helpers are not under `src/`): read the integer four cells past
`prev_locs`, reduce it with floor-modulo by the prime, mask the low bit and
write it to `ids.locs`. -/
def pow (mem : Memory) (prime : ℤ) (prev_locs_addr : Relocatable)
    (locs_addr : MaybeRelocatable) : Except VirtualMachineError Memory :=
  let exp_addr : MaybeRelocatable :=
    .RelocatableValue ⟨prev_locs_addr.segment_index, prev_locs_addr.offset + 4⟩
  match mem.get_integer exp_addr with
  | .error e => .error e
  | .ok prev_locs_exp =>
    let locs_bit := bigint_and_one (Int.fmod prev_locs_exp prime)
    mem.insert locs_addr (.Int locs_bit)

/-! Concrete machine states used to instantiate the theorems below. -/

/-- An AssertEq instruction with result mode Mul (field values as in the
embedded deduction tests). -/
def instrAssertEqMul : Instruction :=
  ⟨1, 2, 3, none, .FP, .AP, .AP, .Mul, .Jump, .Regular, .Regular, .AssertEq⟩

/-- A NOp instruction whose fp_update is Dst. -/
def instrFpDst : Instruction :=
  ⟨1, 2, 3, none, .FP, .AP, .AP, .Add, .Regular, .Regular, .Dst, .NOp⟩

/-- A Jnz instruction carrying an immediate, so its size is 2. -/
def instrJnz : Instruction :=
  ⟨1, 2, 1, some 5, .FP, .AP, .Imm, .Add, .Jnz, .Regular, .Regular, .NOp⟩

/-- A small run context over the prime 127. -/
def ctx127 : RunContext := ⟨.Int 4, .Int 5, .Int 6, 127⟩

/-- Operands with an integer dst of 11. -/
def opsInt : Operands := ⟨.Int 11, some (.Int 8), .Int 9, .Int 10⟩

/-- Operands whose dst is the integer zero. -/
def opsDstZero : Operands := ⟨.Int 0, some (.Int 0), .Int 9, .Int 10⟩

/-- Operands whose dst is the nonzero integer 7. -/
def opsDstSeven : Operands := ⟨.Int 7, some (.Int 8), .Int 9, .Int 10⟩

/-- Operands whose dst is a relocatable address. -/
def opsDstRel : Operands :=
  ⟨.RelocatableValue ⟨1, 2⟩, some (.Int 8), .Int 9, .Int 10⟩

/-- The dict-segment pointer of the concrete tracker below. -/
def ptrW : Relocatable := ⟨1, 0⟩

/-- A Simple tracker for segment 1 mapping key 5 to value 10. -/
def trackerW : DictTracker := ⟨ptrW, .Simple [(5, 10)]⟩

/-- A dict manager holding `trackerW` for segment 1. -/
def dmW : DictManager := [(1, trackerW)]

/-! Claim theorems. -/

/-- C1: the claim states that for an AssertEq instruction with result mode
Mul, operand deduction divides dst by the known operand using the modular
inverse modulo the prime, giving a quotient q with q times the divisor
congruent to dst.  The code instead divides with the truncating BigInt
quotient: at prime 127 with dst = 7 and op1 = 2 it deduces op0 = 3, yet
3 * 2 = 6 is not congruent to 7, while the modular quotient 67 demanded by
the claim satisfies 67 * 2 = 134 ≡ 7 (mod 127).  The deduced operand even
fails the VM's own AssertEq opcode assertion on the same instruction
(compute_res gives 6 ≠ dst = 7), so the code contradicts its own assertion
discipline.  The divisor-zero half of the claim does hold: op1 = 0 leaves
the deduction unsuccessful with no error.  The same truncating division
appears symmetrically in deduce_op1. -/
theorem C1_mul_deduction_uses_integer_division :
    deduce_op0 ctx127 127 instrAssertEqMul (some (.Int 7)) (some (.Int 2)) =
      .ok (some (.Int 3), some (.Int 7)) ∧
    Int.tmod (3 * 2) 127 ≠ Int.tmod 7 127 ∧
    compute_res 127 instrAssertEqMul (.Int 3) (.Int 2) = .ok (some (.Int 6)) ∧
    opcode_assertions instrAssertEqMul ⟨.Int 7, some (.Int 6), .Int 3, .Int 2⟩ ctx127 =
      .error .PanicAssertEqFailed ∧
    Int.tmod (67 * 2) 127 = Int.tmod 7 127 ∧
    deduce_op0 ctx127 127 instrAssertEqMul (some (.Int 7)) (some (.Int 0)) =
      .ok (none, none) ∧
    deduce_op1 instrAssertEqMul 127 (some (.Int 7)) (some (.Int 2)) =
      .ok (some (.Int 3), some (.Int 7)) := by
  decide

/-- C3 counterexample: the claim states that with fp_update Dst the new fp
must be a valid relocatable address and an Int dst is not accepted; but
update_fp is total and accepts the integer dst 11, making it the new fp
(exactly the behaviour the embedded test update_fp_dst expects). -/
theorem C3_counterexample_update_fp_accepts_int :
    update_fp instrFpDst opsInt ctx127 = { ctx127 with fp := .Int 11 } ∧
    (update_fp instrFpDst opsInt ctx127).fp = .Int 11 := by
  decide

/-- C3 (amended): for every instruction whose fp_update is Dst, update_fp
sets fp to operands.dst unconditionally; dst of either variant, including an
integer, is accepted and no error is possible. -/
theorem C3_update_fp_dst_sets_fp (instruction : Instruction)
    (operands : Operands) (ctx : RunContext)
    (h : instruction.fp_update = .Dst) :
    update_fp instruction operands ctx = { ctx with fp := operands.dst } := by
  unfold update_fp
  rw [h]

/-- Witness for the amended C3 at a concrete instruction. -/
theorem C3_update_fp_dst_sets_fp_witness :
    instrFpDst.fp_update = .Dst ∧
    update_fp instrFpDst opsInt ctx127 = { ctx127 with fp := opsInt.dst } :=
  ⟨by decide, C3_update_fp_dst_sets_fp instrFpDst opsInt ctx127 (by decide)⟩

/-- C4: for a Jnz instruction, a dst equal to the integer zero advances pc
by the instruction size (2 when an immediate is present), a nonzero integer
dst sets pc to pc + op1 reduced modulo the prime, and a relocatable dst
fails the update with PureValue. -/
theorem C4_jnz_update_pc (prime : ℤ) (instruction : Instruction)
    (operands : Operands) (ctx : RunContext)
    (h : instruction.pc_update = .Jnz) :
    (operands.dst = .Int 0 →
      update_pc prime instruction operands ctx =
        .ok { ctx with pc := ctx.pc.add_usize_mod instruction.size none }) ∧
    (∀ n : ℤ, n ≠ 0 → operands.dst = .Int n →
      update_pc prime instruction operands ctx =
        (ctx.pc.add_mod operands.op1 prime).map
          (fun v => { ctx with pc := v })) ∧
    (∀ r : Relocatable, operands.dst = .RelocatableValue r →
      update_pc prime instruction operands ctx = .error .PureValue) ∧
    (∀ i : ℤ, instruction.imm = some i → instruction.size = 2) := by
  refine ⟨?_, ?_, ?_, ?_⟩
  · intro hdst
    unfold update_pc
    rw [h, hdst]
    simp [VirtualMachine.is_zero]
  · intro n hn hdst
    unfold update_pc
    rw [h, hdst]
    simp only [VirtualMachine.is_zero, hn, decide_eq_false hn]
    cases ha : ctx.pc.add_mod operands.op1 prime <;> simp [Except.map]
  · intro r hdst
    unfold update_pc
    rw [h, hdst]
    simp [VirtualMachine.is_zero]
  · intro i himm
    unfold Instruction.size
    rw [himm]

/-- Witness for C4 at concrete Jnz instructions and operands. -/
theorem C4_jnz_update_pc_witness :
    update_pc 127 instrJnz opsDstZero ctx127 =
      .ok { ctx127 with pc := ctx127.pc.add_usize_mod instrJnz.size none } ∧
    update_pc 127 instrJnz opsDstSeven ctx127 =
      (ctx127.pc.add_mod opsDstSeven.op1 127).map
        (fun v => { ctx127 with pc := v }) ∧
    update_pc 127 instrJnz opsDstRel ctx127 = .error .PureValue ∧
    instrJnz.size = 2 :=
  ⟨(C4_jnz_update_pc 127 instrJnz opsDstZero ctx127 (by decide)).1 (by decide),
   (C4_jnz_update_pc 127 instrJnz opsDstSeven ctx127 (by decide)).2.1 7
     (by decide) (by decide),
   (C4_jnz_update_pc 127 instrJnz opsDstRel ctx127 (by decide)).2.2.1 ⟨1, 2⟩
     (by decide),
   (C4_jnz_update_pc 127 instrJnz opsDstRel ctx127 (by decide)).2.2.2 5
     (by decide)⟩

/-- C7: when dict_update is given a prev_value that differs from the
tracker's current value for the key, it returns
WrongPrevValue(given, current, key) and the whole dict manager -- hence the
tracker, its stored value for the key and its current_ptr -- is returned
unchanged. -/
theorem C7_dict_update_wrong_prev (dm : DictManager)
    (key prev_value new_value : ℤ) (dict_ptr : Relocatable)
    (t : DictTracker) (current : ℤ)
    (ht : dm.get_tracker dict_ptr = .ok t)
    (hv : t.get_value key = .ok current)
    (hne : current ≠ prev_value) :
    dict_update dm key prev_value new_value dict_ptr =
      (dm, .error (.WrongPrevValue prev_value current key)) := by
  unfold dict_update
  rw [ht]
  dsimp only
  rw [hv]
  simp [hne]

/-- Witness for C7: the spec scenario with stored value 10 for key 5 and
claimed previous value 11 yields WrongPrevValue(11, 10, 5) and the
unchanged manager. -/
theorem C7_dict_update_wrong_prev_witness :
    dict_update dmW 5 11 20 ptrW =
      (dmW, .error (.WrongPrevValue 11 10 5)) :=
  C7_dict_update_wrong_prev dmW 5 11 20 ptrW trackerW 10
    (by decide) (by decide) (by decide)

/-- Replacing the tracker of a segment that already holds one makes the new
tracker the one found for that segment. -/
theorem find_setTracker_self (dm : DictManager) (segment : ℤ)
    (t t0 : DictTracker) (h : dm.find segment = some t0) :
    (dm.setTracker segment t).find segment = some t := by
  induction dm with
  | nil => simp [DictManager.find] at h
  | cons p rest ih =>
    obtain ⟨s, t1⟩ := p
    by_cases hs : s = segment
    · subst hs
      simp [DictManager.setTracker, DictManager.find]
    · simp only [DictManager.find, hs, if_false] at h
      simp only [DictManager.setTracker, hs, if_false, DictManager.find]
      exact ih h

/-- A successful `get_tracker` pins down the tracker found for the segment
and its current pointer. -/
theorem get_tracker_ok (dm : DictManager) (addr : Relocatable)
    (t : DictTracker) (h : dm.get_tracker addr = .ok t) :
    dm.find addr.segment_index = some t ∧ t.current_ptr = addr := by
  unfold DictManager.get_tracker at h
  cases hf : dm.find addr.segment_index with
  | none => rw [hf] at h; exact absurd h (by simp)
  | some t0 =>
    rw [hf] at h
    dsimp only at h
    by_cases hc : t0.current_ptr = addr
    · rw [if_pos hc] at h
      injection h with h2
      subst h2
      exact ⟨rfl, hc⟩
    · rw [if_neg hc] at h
      exact absurd h (by simp)

/-- C8: after a successful dict_read, dict_write or dict_update, the offset
of the tracker's current pointer has increased by exactly 3
(DICT_ACCESS_SIZE) relative to its value before the hint. -/
theorem C8_dict_hints_advance_ptr_by_3 :
    (∀ (dm : DictManager) (mem : Memory) (key : ℤ) (dict_ptr : Relocatable)
       (value_addr : MaybeRelocatable) (t : DictTracker),
       dm.get_tracker dict_ptr = .ok t →
       (dict_read dm mem key dict_ptr value_addr).2 = .ok () →
       ∃ t', (dict_read dm mem key dict_ptr value_addr).1.1.find
               dict_ptr.segment_index = some t' ∧
             t'.current_ptr.offset = t.current_ptr.offset + 3) ∧
    (∀ (dm : DictManager) (mem : Memory) (key new_value : ℤ)
       (dict_ptr : Relocatable) (t : DictTracker),
       dm.get_tracker dict_ptr = .ok t →
       (dict_write dm mem key new_value dict_ptr).2 = .ok () →
       ∃ t', (dict_write dm mem key new_value dict_ptr).1.1.find
               dict_ptr.segment_index = some t' ∧
             t'.current_ptr.offset = t.current_ptr.offset + 3) ∧
    (∀ (dm : DictManager) (key prev_value new_value : ℤ)
       (dict_ptr : Relocatable) (t : DictTracker),
       dm.get_tracker dict_ptr = .ok t →
       (dict_update dm key prev_value new_value dict_ptr).2 = .ok () →
       ∃ t', (dict_update dm key prev_value new_value dict_ptr).1.find
               dict_ptr.segment_index = some t' ∧
             t'.current_ptr.offset = t.current_ptr.offset + 3) := by
  refine ⟨?_, ?_, ?_⟩
  · intro dm mem key dict_ptr value_addr t ht hok
    obtain ⟨hf, _⟩ := get_tracker_ok dm dict_ptr t ht
    unfold dict_read at hok ⊢
    rw [ht] at hok ⊢
    dsimp only at hok ⊢
    cases hv : t.advance.get_value key with
    | error e => rw [hv] at hok; simp at hok
    | ok value =>
      rw [hv] at hok
      dsimp only at hok ⊢
      cases hi : mem.insert value_addr (.Int value) with
      | error e => rw [hi] at hok; simp at hok
      | ok mem1 =>
        dsimp only
        exact ⟨t.advance,
               find_setTracker_self dm dict_ptr.segment_index _ t hf, rfl⟩
  · intro dm mem key new_value dict_ptr t ht hok
    obtain ⟨hf, _⟩ := get_tracker_ok dm dict_ptr t ht
    unfold dict_write at hok ⊢
    rw [ht] at hok ⊢
    dsimp only at hok ⊢
    cases hv : t.advance.get_value key with
    | error e => rw [hv] at hok; simp at hok
    | ok prev_value =>
      rw [hv] at hok
      dsimp only at hok ⊢
      cases hi : mem.insert
          (.RelocatableValue ⟨dict_ptr.segment_index, dict_ptr.offset + 1⟩)
          (.Int prev_value) with
      | error e => rw [hi] at hok; simp at hok
      | ok mem1 =>
        dsimp only
        exact ⟨(t.advance).insert_value key new_value,
               find_setTracker_self dm dict_ptr.segment_index _ t hf, rfl⟩
  · intro dm key prev_value new_value dict_ptr t ht hok
    obtain ⟨hf, _⟩ := get_tracker_ok dm dict_ptr t ht
    unfold dict_update at hok ⊢
    rw [ht] at hok ⊢
    dsimp only at hok ⊢
    cases hv : t.get_value key with
    | error e => rw [hv] at hok; simp at hok
    | ok current_value =>
      rw [hv] at hok
      dsimp only at hok ⊢
      by_cases hne : current_value ≠ prev_value
      · simp [hne] at hok
      · rw [if_neg hne]
        exact ⟨(t.insert_value key new_value).advance,
               find_setTracker_self dm dict_ptr.segment_index _ t hf, rfl⟩

/-- Witness for C8: a read, a write and an update each advance the concrete
tracker's offset from 0 to 3. -/
theorem C8_dict_hints_advance_ptr_by_3_witness :
    (∃ t', (dict_read dmW [] 5 ptrW (.RelocatableValue ⟨2, 0⟩)).1.1.find
             ptrW.segment_index = some t' ∧
           t'.current_ptr.offset = trackerW.current_ptr.offset + 3) ∧
    (∃ t', (dict_write dmW [] 5 21 ptrW).1.1.find
             ptrW.segment_index = some t' ∧
           t'.current_ptr.offset = trackerW.current_ptr.offset + 3) ∧
    (∃ t', (dict_update dmW 5 10 21 ptrW).1.find
             ptrW.segment_index = some t' ∧
           t'.current_ptr.offset = trackerW.current_ptr.offset + 3) :=
  ⟨C8_dict_hints_advance_ptr_by_3.1 dmW [] 5 ptrW (.RelocatableValue ⟨2, 0⟩)
     trackerW (by decide) (by decide),
   C8_dict_hints_advance_ptr_by_3.2.1 dmW [] 5 21 ptrW trackerW
     (by decide) (by decide),
   C8_dict_hints_advance_ptr_by_3.2.2 dmW 5 10 21 ptrW trackerW
     (by decide) (by decide)⟩

/-- C10: when dict_read is applied to a Simple tracker without the key, the
hint fails with NoValueForKey yet the tracker's current pointer has already
been advanced by 3; the failing read does not leave the dict state
unchanged. -/
theorem C10_dict_read_missing_key_still_advances (dm : DictManager)
    (mem : Memory) (key : ℤ) (dict_ptr : Relocatable)
    (value_addr : MaybeRelocatable) (t : DictTracker) (d : Dictionary)
    (ht : dm.get_tracker dict_ptr = .ok t)
    (hdata : t.data = .Simple d)
    (hmiss : d.getVal key = none) :
    dict_read dm mem key dict_ptr value_addr =
      ((dm.setTracker dict_ptr.segment_index t.advance, mem),
       .error (.NoValueForKey key)) ∧
    ∃ t', (dm.setTracker dict_ptr.segment_index t.advance).find
            dict_ptr.segment_index = some t' ∧
          t'.current_ptr.offset = t.current_ptr.offset + 3 := by
  obtain ⟨hf, _⟩ := get_tracker_ok dm dict_ptr t ht
  have hv : t.advance.get_value key = .error (.NoValueForKey key) := by
    unfold DictTracker.get_value DictTracker.advance
    dsimp only
    rw [hdata]
    dsimp only
    rw [hmiss]
  constructor
  · unfold dict_read
    rw [ht]
    dsimp only
    rw [hv]
  · exact ⟨t.advance, find_setTracker_self dm dict_ptr.segment_index _ t hf, rfl⟩

/-- A Simple tracker without key 6 for the C10 witness. -/
theorem C10_dict_read_missing_key_still_advances_witness :
    dict_read dmW [] 6 ptrW (.RelocatableValue ⟨2, 0⟩) =
      ((dmW.setTracker ptrW.segment_index trackerW.advance, []),
       .error (.NoValueForKey 6)) ∧
    ∃ t', (dmW.setTracker ptrW.segment_index trackerW.advance).find
            ptrW.segment_index = some t' ∧
          t'.current_ptr.offset = trackerW.current_ptr.offset + 3 :=
  C10_dict_read_missing_key_still_advances dmW [] 6 ptrW
    (.RelocatableValue ⟨2, 0⟩) trackerW [(5, 10)]
    (by decide) (by decide) (by decide)

/-- C9: the pow hint reads the integer stored four cells past the address of
ids.prev_locs, reduces it with floor-modulo by the prime, takes its low bit
(which is always 0 or 1) and writes it to ids.locs; a relocatable value in
that cell fails the hint with ExpectedInteger. -/
theorem C9_pow_writes_low_bit (mem : Memory) (prime : ℤ)
    (prev_locs_addr : Relocatable) (locs_addr : MaybeRelocatable) :
    (∀ e : ℤ,
       mem.get (.RelocatableValue
         ⟨prev_locs_addr.segment_index, prev_locs_addr.offset + 4⟩) =
         some (.Int e) →
       pow mem prime prev_locs_addr locs_addr =
         mem.insert locs_addr (.Int (bigint_and_one (Int.fmod e prime))) ∧
       (bigint_and_one (Int.fmod e prime) = 0 ∨
        bigint_and_one (Int.fmod e prime) = 1)) ∧
    (∀ r : Relocatable,
       mem.get (.RelocatableValue
         ⟨prev_locs_addr.segment_index, prev_locs_addr.offset + 4⟩) =
         some (.RelocatableValue r) →
       pow mem prime prev_locs_addr locs_addr =
         .error (.ExpectedInteger (.RelocatableValue
           ⟨prev_locs_addr.segment_index, prev_locs_addr.offset + 4⟩))) := by
  constructor
  · intro e he
    constructor
    · unfold pow
      dsimp only
      unfold Memory.get_integer
      rw [he]
    · exact Int.emod_two_eq _
  · intro r hr
    unfold pow
    dsimp only
    unfold Memory.get_integer
    rw [hr]

/-- Witness for C9: with exponent 3 stored at (1, 14), four cells past
prev_locs = (1, 10), the hint writes bit 1 to the locs cell at (1, 11); a
relocatable in the exponent cell gives ExpectedInteger. -/
theorem C9_pow_writes_low_bit_witness :
    pow [(.RelocatableValue ⟨1, 14⟩, .Int 3)] 127 ⟨1, 10⟩
        (.RelocatableValue ⟨1, 11⟩) =
      Memory.insert [(.RelocatableValue ⟨1, 14⟩, .Int 3)]
        (.RelocatableValue ⟨1, 11⟩)
        (.Int (bigint_and_one (Int.fmod 3 127))) ∧
    (bigint_and_one (Int.fmod 3 127) = 0 ∨
     bigint_and_one (Int.fmod 3 127) = 1) ∧
    pow [(.RelocatableValue ⟨1, 14⟩, .RelocatableValue ⟨1, 11⟩)] 127 ⟨1, 10⟩
        (.RelocatableValue ⟨1, 11⟩) =
      .error (.ExpectedInteger (.RelocatableValue ⟨1, 14⟩)) :=
  ⟨((C9_pow_writes_low_bit [(.RelocatableValue ⟨1, 14⟩, .Int 3)] 127 ⟨1, 10⟩
      (.RelocatableValue ⟨1, 11⟩)).1 3 (by decide)).1,
   ((C9_pow_writes_low_bit [(.RelocatableValue ⟨1, 14⟩, .Int 3)] 127 ⟨1, 10⟩
      (.RelocatableValue ⟨1, 11⟩)).1 3 (by decide)).2,
   (C9_pow_writes_low_bit
      [(.RelocatableValue ⟨1, 14⟩, .RelocatableValue ⟨1, 11⟩)] 127 ⟨1, 10⟩
      (.RelocatableValue ⟨1, 11⟩)).2 ⟨1, 11⟩ (by decide)⟩

/-! Helper lemmas on the access-recording list operations. -/

/-- The pushed address is a member of the result. -/
theorem mem_push_unique_self (l : List MaybeRelocatable) (a : MaybeRelocatable) :
    a ∈ push_unique l a := by
  unfold push_unique
  split
  · assumption
  · simp

/-- Existing members survive a push. -/
theorem mem_push_unique_mono (l : List MaybeRelocatable)
    (a b : MaybeRelocatable) (h : b ∈ l) : b ∈ push_unique l a := by
  unfold push_unique
  split
  · exact h
  · simp [h]

/-- A conditional push preserves the no-duplicates invariant. -/
theorem nodup_push_unique (l : List MaybeRelocatable) (a : MaybeRelocatable)
    (h : l.Nodup) : (push_unique l a).Nodup := by
  unfold push_unique
  split
  · exact h
  · next hna =>
    refine List.nodup_append.mpr ⟨h, List.nodup_singleton a, ?_⟩
    intro x hx hx'
    simp at hx'
    subst hx'
    exact hna hx

/-- Existing members survive the whole recording loop. -/
theorem mem_push_all_unique_mono (addrs l : List MaybeRelocatable)
    (b : MaybeRelocatable) (h : b ∈ l) : b ∈ push_all_unique l addrs := by
  induction addrs generalizing l with
  | nil => exact h
  | cons a rest ih =>
    exact ih (push_unique l a) (mem_push_unique_mono l a b h)

/-- Every address handed to the recording loop is a member of the result. -/
theorem mem_push_all_unique_of_mem (addrs l : List MaybeRelocatable)
    (a : MaybeRelocatable) (h : a ∈ addrs) : a ∈ push_all_unique l addrs := by
  induction addrs generalizing l with
  | nil => cases h
  | cons x rest ih =>
    cases h with
    | head => exact mem_push_all_unique_mono rest _ a (mem_push_unique_self l a)
    | tail _ h2 => exact ih (push_unique l x) h2

/-- The recording loop preserves the no-duplicates invariant. -/
theorem nodup_push_all_unique (addrs l : List MaybeRelocatable)
    (h : l.Nodup) : (push_all_unique l addrs).Nodup := by
  induction addrs generalizing l with
  | nil => exact h
  | cons a rest ih => exact ih (push_unique l a) (nodup_push_unique l a h)

/-- The address list returned by a successful compute_operands is exactly
the dst, op0 and op1 addresses computed from the run context. -/
theorem compute_operands_addrs (vm : VirtualMachine)
    (instruction : Instruction)
    (result : Operands × List MaybeRelocatable × Memory)
    (hco : compute_operands vm instruction = .ok result) :
    ∃ op1a,
      vm.run_context.compute_op1_addr instruction
        (vm.memory.get (vm.run_context.compute_op0_addr instruction)) =
        .ok op1a ∧
      result.2.1 = [vm.run_context.compute_dst_addr instruction,
                    vm.run_context.compute_op0_addr instruction, op1a] := by
  unfold compute_operands at hco
  dsimp only at hco
  cases h1 : vm.run_context.compute_op1_addr instruction
      (vm.memory.get (vm.run_context.compute_op0_addr instruction)) with
  | error e => rw [h1] at hco; exact (Except.noConfusion hco)
  | ok op1a =>
    rw [h1] at hco
    dsimp only at hco
    refine ⟨op1a, rfl, ?_⟩
    repeat' split at hco
    all_goals try exact (Except.noConfusion hco)
    all_goals injection hco with hco2
    all_goals rw [← hco2]

/-! Concrete Call scenario used below: the registers pc and fp are
relocatable addresses, memory holds an op0 cell with the value 999
(unrelated to the return pc) and a dst cell with 50 (unrelated to fp). -/

/-- A Call instruction (decoder-consistent flags: res Add, pc Jump,
ap Add2, fp APPlus2). -/
def instrCallW : Instruction :=
  ⟨0, 1, 2, none, .AP, .AP, .AP, .Add, .Jump, .Add2, .APPlus2, .Call⟩

/-- Registers for the Call scenario: relocatable pc (0,0), ap = fp =
(1,2), prime 127. -/
def ctxCallW : RunContext :=
  ⟨.RelocatableValue ⟨0, 0⟩, .RelocatableValue ⟨1, 2⟩,
   .RelocatableValue ⟨1, 2⟩, 127⟩

/-- Memory for the Call scenario: dst cell (1,2) holds 50, op0 cell (1,3)
holds 999, op1 cell (1,4) holds 7. -/
def memCallW : Memory :=
  [(.RelocatableValue ⟨1, 2⟩, .Int 50),
   (.RelocatableValue ⟨1, 3⟩, .Int 999),
   (.RelocatableValue ⟨1, 4⟩, .Int 7)]

/-- The machine for the Call scenario. -/
def vmCallW : VirtualMachine := ⟨ctxCallW, 127, memCallW, [], [], 0⟩

/-- The machine after stepping the Call scenario. -/
def vmCallW_after : VirtualMachine :=
  match run_instruction vmCallW instrCallW with
  | .ok v => v
  | .error _ => vmCallW

/-- The operands resolved in the Call scenario. -/
def opsCallW : Operands :=
  match compute_operands vmCallW instrCallW with
  | .ok (o, _, _) => o
  | .error _ => ⟨.Int 0, none, .Int 0, .Int 0⟩

/-- The operand addresses resolved in the Call scenario. -/
def addrsCallW : List MaybeRelocatable :=
  match compute_operands vmCallW instrCallW with
  | .ok (_, a, _) => a
  | .error _ => []

/-- The memory resolved in the Call scenario. -/
def memCallW_after : Memory :=
  match compute_operands vmCallW instrCallW with
  | .ok (_, _, m) => m
  | .error _ => []

/-- C2 counterexample: a Call step with a relocatable pc and fp completes
without failing although its op0 (the integer 999) differs from
pc + instruction size (the address (0,1)) and its dst (the integer 50)
differs from fp (the address (1,2)): the opcode assertions compare the two
values only when both are integers and silently skip every mixed case, so
the claim's "for all values, whether integers or relocatable addresses" is
false on the code. -/
theorem C2_counterexample_call_step_skips_checks :
    instrCallW.opcode = .Call ∧
    run_instruction vmCallW instrCallW = .ok vmCallW_after ∧
    opsCallW.op0 = .Int 999 ∧
    vmCallW.run_context.pc.add_usize_mod instrCallW.size none =
      .RelocatableValue ⟨0, 1⟩ ∧
    opsCallW.op0 ≠ vmCallW.run_context.pc.add_usize_mod instrCallW.size none ∧
    opsCallW.dst = .Int 50 ∧
    vmCallW.run_context.fp = .RelocatableValue ⟨1, 2⟩ ∧
    opsCallW.dst ≠ vmCallW.run_context.fp := by
  decide

/-- A successful Call run implies the opcode assertions returned ok. -/
theorem run_instruction_assertions_ok (vm : VirtualMachine)
    (instruction : Instruction) (ops : Operands)
    (addrs : List MaybeRelocatable) (mem2 : Memory) (vm' : VirtualMachine)
    (hco : compute_operands vm instruction = .ok (ops, addrs, mem2))
    (h : run_instruction vm instruction = .ok vm') :
    opcode_assertions instruction ops vm.run_context = .ok () := by
  unfold run_instruction at h
  rw [hco] at h
  dsimp only at h
  cases hx : opcode_assertions instruction ops vm.run_context with
  | error e => rw [hx] at h; simp at h
  | ok u => rfl

/-- Passing Call opcode assertions force the integer-compared equalities. -/
theorem opcode_assertions_call_ok (instruction : Instruction)
    (operands : Operands) (ctx : RunContext)
    (hop : instruction.opcode = .Call)
    (h : opcode_assertions instruction operands ctx = .ok ()) :
    (∀ a b : ℤ, operands.op0 = .Int a → ctx.pc = .Int b →
       a = b + (instruction.size : ℤ)) ∧
    (∀ a b : ℤ, operands.dst = .Int a → ctx.fp = .Int b → a = b) := by
  unfold opcode_assertions at h
  rw [hop] at h
  dsimp only at h
  have hch : check_call_dst operands ctx = .ok () := by
    cases hop0 : operands.op0 with
    | RelocatableValue r =>
      rw [hop0] at h
      cases hpc : ctx.pc with
      | Int b => rw [hpc] at h; exact h
      | RelocatableValue r2 => rw [hpc] at h; exact h
    | Int a =>
      rw [hop0] at h
      cases hpc : ctx.pc with
      | RelocatableValue r2 => rw [hpc] at h; exact h
      | Int b =>
        rw [hpc] at h
        dsimp only at h
        by_cases hcond : a ≠ b + (instruction.size : ℤ)
        · rw [if_pos hcond] at h; exact absurd h (by simp)
        · rw [if_neg hcond] at h; exact h
  constructor
  · intro a b ha hb
    rw [ha, hb] at h
    dsimp only at h
    by_contra hne
    rw [if_pos hne] at h
    exact absurd h (by simp)
  · intro a b ha hb
    unfold check_call_dst at hch
    rw [ha, hb] at hch
    dsimp only at hch
    by_contra hne
    rw [if_pos hne] at hch
    exact absurd hch (by simp)

/-- C2 (amended): for a Call instruction whose step completes without
failing, the opcode assertions guarantee op0 = pc + instruction size and
dst = fp only in the cases the code actually compares, namely when the two
values concerned are both integers; mixed or relocatable combinations are
skipped without any check. -/
theorem C2_call_assertions_when_int (vm : VirtualMachine)
    (instruction : Instruction) (ops : Operands)
    (addrs : List MaybeRelocatable) (mem2 : Memory) (vm' : VirtualMachine)
    (hop : instruction.opcode = .Call)
    (hco : compute_operands vm instruction = .ok (ops, addrs, mem2))
    (h : run_instruction vm instruction = .ok vm') :
    (∀ a b : ℤ, ops.op0 = .Int a → vm.run_context.pc = .Int b →
       a = b + (instruction.size : ℤ)) ∧
    (∀ a b : ℤ, ops.dst = .Int a → vm.run_context.fp = .Int b → a = b) :=
  opcode_assertions_call_ok instruction ops vm.run_context hop
    (run_instruction_assertions_ok vm instruction ops addrs mem2 vm' hco h)

/-- C5: every successful run_instruction appends exactly one trace entry
holding the pre-update pc, ap and fp, and increments current_step by one. -/
theorem C5_trace_entry_and_step_count (vm : VirtualMachine)
    (instruction : Instruction) (vm' : VirtualMachine)
    (h : run_instruction vm instruction = .ok vm') :
    vm'.trace = vm.trace ++
      [⟨vm.run_context.pc, vm.run_context.ap, vm.run_context.fp⟩] ∧
    vm'.current_step = vm.current_step + 1 := by
  unfold run_instruction at h
  cases hco : compute_operands vm instruction with
  | error e => rw [hco] at h; simp at h
  | ok r =>
    obtain ⟨ops, addrs, mem2⟩ := r
    rw [hco] at h
    dsimp only at h
    cases hoa : opcode_assertions instruction ops vm.run_context with
    | error e => rw [hoa] at h; simp at h
    | ok u =>
      rw [hoa] at h
      dsimp only at h
      cases hur : update_registers vm.prime instruction ops vm.run_context with
      | error e => rw [hur] at h; simp at h
      | ok ctx2 =>
        rw [hur] at h
        dsimp only at h
        injection h with h2
        rw [← h2]
        exact ⟨rfl, rfl⟩

/-- C6: after every successful run_instruction the accessed-address list
contains the three operand addresses of the step and the pre-step pc, the
list never holds an address twice (the no-duplicates invariant is
preserved), and the recorded address list is exactly the dst, op0 and op1
addresses. -/
theorem C6_accessed_addresses_set (vm : VirtualMachine)
    (instruction : Instruction) (ops : Operands)
    (addrs : List MaybeRelocatable) (mem2 : Memory) (vm' : VirtualMachine)
    (hco : compute_operands vm instruction = .ok (ops, addrs, mem2))
    (h : run_instruction vm instruction = .ok vm') :
    (∀ a ∈ addrs, a ∈ vm'.accessed_addresses) ∧
    vm.run_context.pc ∈ vm'.accessed_addresses ∧
    (vm.accessed_addresses.Nodup → vm'.accessed_addresses.Nodup) ∧
    (∃ op1a,
       vm.run_context.compute_op1_addr instruction
         (vm.memory.get (vm.run_context.compute_op0_addr instruction)) =
         .ok op1a ∧
       addrs = [vm.run_context.compute_dst_addr instruction,
                vm.run_context.compute_op0_addr instruction, op1a]) := by
  have hshape := compute_operands_addrs vm instruction (ops, addrs, mem2) hco
  unfold run_instruction at h
  rw [hco] at h
  dsimp only at h
  cases hoa : opcode_assertions instruction ops vm.run_context with
  | error e => rw [hoa] at h; simp at h
  | ok u =>
    rw [hoa] at h
    dsimp only at h
    cases hur : update_registers vm.prime instruction ops vm.run_context with
    | error e => rw [hur] at h; simp at h
    | ok ctx2 =>
      rw [hur] at h
      dsimp only at h
      injection h with h2
      rw [← h2]
      refine ⟨?_, ?_, ?_, hshape⟩
      · intro a ha
        exact mem_push_unique_mono _ _ _
          (mem_push_all_unique_of_mem addrs vm.accessed_addresses a ha)
      · exact mem_push_unique_self _ _
      · intro hnd
        exact nodup_push_unique _ _
          (nodup_push_all_unique addrs vm.accessed_addresses hnd)

/-- Registers for the all-integer Call scenario: pc = 10, fp = 6,
prime 127. -/
def ctxCallI : RunContext :=
  ⟨.Int 10, .RelocatableValue ⟨1, 2⟩, .Int 6, 127⟩

/-- Memory for the all-integer Call scenario: dst cell (1,2) holds 6 = fp,
op0 cell (1,3) holds 11 = pc + size, op1 cell (1,4) holds 7. -/
def memCallI : Memory :=
  [(.RelocatableValue ⟨1, 2⟩, .Int 6),
   (.RelocatableValue ⟨1, 3⟩, .Int 11),
   (.RelocatableValue ⟨1, 4⟩, .Int 7)]

/-- The machine for the all-integer Call scenario. -/
def vmCallI : VirtualMachine := ⟨ctxCallI, 127, memCallI, [], [], 0⟩

/-- The machine after stepping the all-integer Call scenario. -/
def vmCallI_after : VirtualMachine :=
  match run_instruction vmCallI instrCallW with
  | .ok v => v
  | .error _ => vmCallI

/-- The operands resolved in the all-integer Call scenario. -/
def opsCallI : Operands :=
  match compute_operands vmCallI instrCallW with
  | .ok (o, _, _) => o
  | .error _ => ⟨.Int 0, none, .Int 0, .Int 0⟩

/-- The operand addresses resolved in the all-integer Call scenario. -/
def addrsCallI : List MaybeRelocatable :=
  match compute_operands vmCallI instrCallW with
  | .ok (_, a, _) => a
  | .error _ => []

/-- The memory resolved in the all-integer Call scenario. -/
def memCallI_after : Memory :=
  match compute_operands vmCallI instrCallW with
  | .ok (_, _, m) => m
  | .error _ => []

/-- Witness for the amended C2: an all-integer Call scenario (pc = 10,
op0 cell = 11 = pc + 1, fp = dst cell = 6) steps successfully and the
compared equalities hold. -/
theorem C2_call_assertions_when_int_witness :
    (11 : ℤ) = 10 + (instrCallW.size : ℤ) ∧ (6 : ℤ) = 6 :=
  ⟨(C2_call_assertions_when_int vmCallI instrCallW opsCallI addrsCallI
      memCallI_after vmCallI_after (by decide) (by decide) (by decide)).1
      11 10 (by decide) (by decide),
   (C2_call_assertions_when_int vmCallI instrCallW opsCallI addrsCallI
      memCallI_after vmCallI_after (by decide) (by decide) (by decide)).2
      6 6 (by decide) (by decide)⟩

/-- Witness for C5: the concrete Call scenario appends exactly its pre-step
registers to the trace and bumps the step counter. -/
theorem C5_trace_entry_and_step_count_witness :
    vmCallW_after.trace = vmCallW.trace ++
      [⟨vmCallW.run_context.pc, vmCallW.run_context.ap,
        vmCallW.run_context.fp⟩] ∧
    vmCallW_after.current_step = vmCallW.current_step + 1 :=
  C5_trace_entry_and_step_count vmCallW instrCallW vmCallW_after (by decide)

/-- Witness for C6: after the concrete Call step the accessed-address list
contains the three operand addresses (1,2), (1,3), (1,4) and the pc (0,0),
without duplicates. -/
theorem C6_accessed_addresses_set_witness :
    ((.RelocatableValue ⟨1, 2⟩ : MaybeRelocatable) ∈
       vmCallW_after.accessed_addresses) ∧
    ((.RelocatableValue ⟨1, 3⟩ : MaybeRelocatable) ∈
       vmCallW_after.accessed_addresses) ∧
    ((.RelocatableValue ⟨1, 4⟩ : MaybeRelocatable) ∈
       vmCallW_after.accessed_addresses) ∧
    vmCallW.run_context.pc ∈ vmCallW_after.accessed_addresses ∧
    vmCallW_after.accessed_addresses.Nodup :=
  have hthm := C6_accessed_addresses_set vmCallW instrCallW opsCallW
    addrsCallW memCallW_after vmCallW_after (by decide) (by decide)
  ⟨hthm.1 _ (by decide), hthm.1 _ (by decide), hthm.1 _ (by decide),
   hthm.2.1, hthm.2.2.1 (by decide)⟩

end CairoVM
